import Mathlib

/-!
# Verification of the MoonTVPlus source-selection / playback-session code

Shallow embedding, in Lean 4, of the parts of the repository that the
specification's testable properties talk about:

* the source scoring function `calculateSourceScore` and the surrounding
  batch-bound computation in `preferBestSource` (src/app/play/page.tsx);
* the default manifest ad filter `filterAdsFromM3U8` (src/app/play/page.tsx);
* the hls.js fatal-error handler (src/app/play/page.tsx);
* the resume-on-canplay, progress-save and skip-intro handlers
  (src/app/play/page.tsx);
* the danmaku cache gating logic (danmaku-cache module);
* the admin OpenList `POST` route's scan-interval validation
  (src/app/api/admin/openlist/route.ts).

JavaScript strings are embedded as `List Char`; JavaScript numbers as `ℚ`
(the code under study performs only exact decimal arithmetic in the claims
considered); `null`/`undefined`-able values as `Option`.
-/

/-! ## JavaScript string primitives -/

/-- JS `String.prototype.split(sep)` for a one-character separator,
on strings embedded as `List Char`.  `"".split(s) = [""]`,
`"a\n".split("\n") = ["a", ""]`. -/
def jsSplit (sep : Char) : List Char → List (List Char)
  | [] => [[]]
  | c :: cs =>
    match jsSplit sep cs with
    | [] => [[c]]
    | l :: ls => if c = sep then [] :: l :: ls else (c :: l) :: ls

/-- JS `Array.prototype.join(sep)` for a one-character separator. -/
def jsJoin (sep : Char) : List (List Char) → List Char
  | [] => []
  | [l] => l
  | l :: l2 :: ls => l ++ sep :: jsJoin sep (l2 :: ls)

/-- Does the pattern occur at the very start of the string? -/
def matchesAt : List Char → List Char → Bool
  | [], _ => true
  | _ :: _, [] => false
  | p :: ps, c :: cs => p = c && matchesAt ps cs

/-- JS `String.prototype.includes(pat)`: substring containment. -/
def includesSub (pat : List Char) : List Char → Bool
  | [] => matchesAt pat []
  | c :: cs => matchesAt pat (c :: cs) || includesSub pat cs

/-- ASCII digit test, used by the embedded `parseInt`. -/
def isAsciiDigit (c : Char) : Bool := '0' ≤ c && c ≤ '9'

/-- Accumulator loop turning a digit list into a natural number. -/
def parseDigits : List Char → ℕ → ℕ
  | [], acc => acc
  | c :: cs, acc => parseDigits cs (acc * 10 + (c.toNat - '0'.toNat))

/-- JS `parseInt(s, 10)`: skip leading whitespace, optional sign, then the
longest digit run; `none` models `NaN` (no digits found).  Trailing
non-digit characters are ignored, as in JS. -/
def parseIntJS (s : List Char) : Option ℤ :=
  let s1 := s.dropWhile (fun c => c = ' ' || c = '\t' || c = '\n' || c = '\r')
  match s1 with
  | '-' :: rest =>
    let ds := rest.takeWhile isAsciiDigit
    if ds = [] then none else some (-(parseDigits ds 0 : ℤ))
  | '+' :: rest =>
    let ds := rest.takeWhile isAsciiDigit
    if ds = [] then none else some (parseDigits ds 0)
  | _ =>
    let ds := s1.takeWhile isAsciiDigit
    if ds = [] then none else some (parseDigits ds 0)

/-! ## Probe results and the source scorer

`getVideoResolutionFromM3u8` produces `{ quality, loadSpeed, pingTime }`.
The quality strings actually produced, and the speed strings together with
the outcome of the regex `^([\d.]+)\s*(KB\/s|MB\/s)$` used on them, are
embedded as inductive types. -/

/-- The quality strings of a probe result: the six recognised labels of the
`switch` in `calculateSourceScore`, plus `unknown` for any other string
(the `default` branch). -/
inductive Quality where
  | q4K | q2K | q1080p | q720p | q480p | qSD | unknown
deriving DecidableEq, Repr

/-- A probe's `loadSpeed` string, classified the way the code's regex
`^([\d.]+)\s*(KB\/s|MB\/s)$` classifies it: the two special strings
(`'未知'`, `'测量中...'`), a value with KB/s or MB/s unit, or any other
string the regex does not match. -/
inductive LoadSpeed where
  | unknown
  | measuring
  | kb (v : ℚ)
  | mb (v : ℚ)
  | malformed
deriving DecidableEq, Repr

/-- Values parsed from the regex digit group are nonnegative. -/
def LoadSpeed.nonneg : LoadSpeed → Prop
  | .kb v => 0 ≤ v
  | .mb v => 0 ≤ v
  | _ => True

instance : DecidablePred LoadSpeed.nonneg := by
  intro ls
  cases ls <;> simp [LoadSpeed.nonneg] <;> infer_instance

/-- One probe measurement: `{ quality, loadSpeed, pingTime }`. -/
structure TestResult where
  quality : Quality
  loadSpeed : LoadSpeed
  pingTime : ℚ
deriving DecidableEq, Repr

/-- The speed in KB/s extracted by the regex match, `none` when the string
is `'未知'`, `'测量中...'`, or fails the regex; `MB/s` values are scaled by
1024 (`unit === 'MB/s' ? value * 1024 : value`). -/
def parsedSpeedKBps : LoadSpeed → Option ℚ
  | .kb v => some v
  | .mb v => some (v * 1024)
  | _ => none

/-- JS `Math.round` (round half toward positive infinity). -/
def jsRound (x : ℚ) : ℤ := ⌊x + 1/2⌋

/-- `Math.round(score * 100) / 100`: round to two decimal places. -/
def round2 (x : ℚ) : ℚ := (jsRound (x * 100) : ℚ) / 100

/-- The quality sub-score `switch` of `calculateSourceScore`. -/
def qualityScoreOf : Quality → ℚ
  | .q4K => 100
  | .q2K => 85
  | .q1080p => 75
  | .q720p => 60
  | .q480p => 40
  | .qSD => 20
  | .unknown => 0

/-- The speed sub-score of `calculateSourceScore`: 30 for the special or
unparsable strings, otherwise `min(100, max(0, speedKBps / maxSpeed * 100))`. -/
def speedScoreOf (ls : LoadSpeed) (maxSpeed : ℚ) : ℚ :=
  match parsedSpeedKBps ls with
  | none => 30
  | some k => min 100 (max 0 (k / maxSpeed * 100))

/-- The latency sub-score of `calculateSourceScore`: 0 for invalid latency,
100 when the batch bounds coincide, otherwise
`min(100, max(0, (maxPing - ping) / (maxPing - minPing) * 100))`. -/
def pingScoreOf (ping minPing maxPing : ℚ) : ℚ :=
  if ping ≤ 0 then 0
  else if maxPing = minPing then 100
  else min 100 (max 0 ((maxPing - ping) / (maxPing - minPing) * 100))

/-- `calculateSourceScore` (src/app/play/page.tsx): weighted sum of the
three sub-scores, rounded to two decimal places. -/
def calculateSourceScore (t : TestResult) (maxSpeed minPing maxPing : ℚ) : ℚ :=
  round2 (qualityScoreOf t.quality * 0.4
    + speedScoreOf t.loadSpeed maxSpeed * 0.4
    + pingScoreOf t.pingTime minPing maxPing * 0.2)

/-! Spec-side formulation of the score, written from the specification's
words, to be compared with the code-derived `calculateSourceScore`. -/

/-- Spec: quality sub-score, "4K=100, 2K=85, 1080p=75, 720p=60, 480p=40,
SD=20, unknown=0". -/
def specQualitySub : Quality → ℚ
  | .q4K => 100
  | .q2K => 85
  | .q1080p => 75
  | .q720p => 60
  | .q480p => 40
  | .qSD => 20
  | .unknown => 0

/-- Spec: speed sub-score, "unknown/measuring → 30; otherwise
min(100, 100 × measured_kbps / max_speed_observed)".  The spec does not
define the sub-score for a string the regex cannot parse; the `malformed`
case is given the placeholder 0 and excluded by hypothesis in the claim. -/
def specSpeedSub : LoadSpeed → ℚ → ℚ
  | .unknown, _ => 30
  | .measuring, _ => 30
  | .kb v, m => min 100 (100 * v / m)
  | .mb v, m => min 100 (100 * (v * 1024) / m)
  | .malformed, _ => 0

/-- Spec: latency sub-score, "0 if latency invalid (≤0); 100 if all
candidates share the same latency; otherwise linear interpolation
100 × (max_latency − latency)/(max_latency − min_latency), clamped to
[0,100]". -/
def specLatencySub (ping minPing maxPing : ℚ) : ℚ :=
  if ping ≤ 0 then 0
  else if maxPing = minPing then 100
  else min 100 (max 0 (100 * (maxPing - ping) / (maxPing - minPing)))

/-- Spec: composite score `0.4*q + 0.4*s + 0.2*l` rounded to 2 decimals. -/
def specCompositeScore (t : TestResult) (maxSpeed minPing maxPing : ℚ) : ℚ :=
  round2 (0.4 * specQualitySub t.quality
    + 0.4 * specSpeedSub t.loadSpeed maxSpeed
    + 0.2 * specLatencySub t.pingTime minPing maxPing)

/-! ## `preferBestSource`: batch bounds and selection -/

/-- The per-result speed value computed inline in `preferBestSource`
(0 for `'未知'`, `'测量中...'` and regex failures, else KB/s value). -/
def speedValueOf (ls : LoadSpeed) : ℚ :=
  match parsedSpeedKBps ls with
  | none => 0
  | some k => k

/-- `validSpeeds`: the speed values of the successful results, filtered to
`speed > 0`. -/
def validSpeedsOf (rs : List TestResult) : List ℚ :=
  (rs.map (fun t => speedValueOf t.loadSpeed)).filter (fun s => 0 < s)

/-- `maxSpeed`: maximum of the valid speeds, defaulting to 1024 KB/s when
no candidate has a measurable speed. -/
def maxSpeedOf (rs : List TestResult) : ℚ :=
  match (validSpeedsOf rs).max? with
  | some m => m
  | none => 1024

/-- `validPings`: the ping times of the successful results, filtered to
`ping > 0`. -/
def validPingsOf (rs : List TestResult) : List ℚ :=
  (rs.map (fun t => t.pingTime)).filter (fun p => 0 < p)

/-- `minPing`: minimum of the valid pings, defaulting to 50. -/
def minPingOf (rs : List TestResult) : ℚ :=
  match (validPingsOf rs).min? with
  | some m => m
  | none => 50

/-- `maxPing`: maximum of the valid pings, defaulting to 1000. -/
def maxPingOf (rs : List TestResult) : ℚ :=
  match (validPingsOf rs).max? with
  | some m => m
  | none => 1000

/-- The decision core of `preferBestSource` (src/app/play/page.tsx), after
the network probes have settled: `sources` paired index-wise with each
probe's outcome (`none` = the probe failed / the source had no episodes).
If no probe succeeded, return `sources[0]`; otherwise score every success
against the batch bounds, sort by descending score (stable, as JS
`Array.prototype.sort`), and return the top source. -/
def preferBestSource {α : Type} (sources : List α)
    (results : List (Option TestResult)) : Option α :=
  let successful := (sources.zip results).filterMap
    (fun p => p.2.map (fun t => (p.1, t)))
  match successful with
  | [] => sources.head?
  | s :: ss =>
    let tr := (s :: ss).map (fun p => p.2)
    let maxSpeed := maxSpeedOf tr
    let minPing := minPingOf tr
    let maxPing := maxPingOf tr
    let scored := (s :: ss).map
      (fun p => (p.1, calculateSourceScore p.2 maxSpeed minPing maxPing))
    (scored.mergeSort (fun a b => decide (b.2 ≤ a.2))).head?.map (fun p => p.1)

/-! ## The default manifest ad filter `filterAdsFromM3U8` -/

/-- The newline separator used by `split('\n')` / `join('\n')`. -/
def nlChar : Char := '\n'

/-- The discontinuity marker substring filtered by the default rule. -/
def discMarker : List Char := "#EXT-X-DISCONTINUITY".toList

/-- The provider identifier for which the filler-duration allow-list is
active (`type == 'ruyi'`). -/
def ruyiType : List Char := "ruyi".toList

/-- The allow-listed EXTINF filler-duration marker substrings for the
`ruyi` provider. -/
def ruyiMarkers : List (List Char) :=
  ["EXTINF:5.640000".toList, "EXTINF:2.960000".toList,
   "EXTINF:3.480000".toList, "EXTINF:4.000000".toList,
   "EXTINF:0.960000".toList, "EXTINF:10.000000".toList,
   "EXTINF:1.266667".toList]

/-- Does a line contain one of the allow-listed filler-duration markers? -/
def matchesRuyiFiller (l : List Char) : Bool :=
  ruyiMarkers.any (fun m => includesSub m l)

/-- The line loop of the default rule of `filterAdsFromM3U8`, with the
`nextdelete` one-line-lookahead flag made an explicit argument. -/
def filterLoop (isRuyi : Bool) : List (List Char) → Bool → List (List Char)
  | [], _ => []
  | _ :: rest, true => filterLoop isRuyi rest false
  | l :: rest, false =>
    if includesSub discMarker l then filterLoop isRuyi rest false
    else if isRuyi && matchesRuyiFiller l then filterLoop isRuyi rest true
    else l :: filterLoop isRuyi rest false

/-- The default rule of `filterAdsFromM3U8` (src/app/play/page.tsx): empty
input returns the empty string; otherwise split into lines, run the filter
loop, and join back with `'\n'`.  (The custom-filter-code path, which runs
a user-supplied routine and falls back to this default rule on failure, is
outside the claims considered.) -/
def filterAdsFromM3U8 (type m3u8Content : List Char) : List Char :=
  if m3u8Content = [] then []
  else jsJoin nlChar (filterLoop (type == ruyiType) (jsSplit nlChar m3u8Content) false)

/-- The default rule as the specification words it: "any DISCONTINUITY
marker line is dropped; for the `ruyi` provider, an allow-listed
filler-duration marker line and its immediately following line are both
dropped (one-line lookahead skip); all other lines pass through unchanged,
preserving original order". -/
def specDefaultRule (isRuyi : Bool) : List (List Char) → List (List Char)
  | [] => []
  | [l] =>
    if includesSub discMarker l then []
    else if isRuyi && matchesRuyiFiller l then []
    else [l]
  | l :: y :: rest =>
    if includesSub discMarker l then specDefaultRule isRuyi (y :: rest)
    else if isRuyi && matchesRuyiFiller l then specDefaultRule isRuyi rest
    else l :: specDefaultRule isRuyi (y :: rest)

/-! ## The hls.js fatal-error handler -/

/-- `Hls.ErrorTypes` cases distinguished by the fatal-error `switch`. -/
inductive HlsErrorType where
  | networkError
  | mediaError
  | otherError
deriving DecidableEq, Repr

/-- The recovery action the handler performs on a fatal error. -/
inductive HlsErrorAction where
  | startLoad
  | recoverMediaError
  | destroy
deriving DecidableEq, Repr

/-- The `Hls.Events.ERROR` handler's fatal branch (src/app/play/page.tsx):
a stateless `switch` on the error type.  Network errors call
`hls.startLoad()`, media errors call `hls.recoverMediaError()`, anything
else destroys the instance. -/
def hlsFatalErrorHandler : HlsErrorType → HlsErrorAction
  | .networkError => .startLoad
  | .mediaError => .recoverMediaError
  | .otherError => .destroy

/-- The actions taken over a sequence of consecutive fatal errors: the
handler keeps no state between invocations, so the trace is a plain map. -/
def hlsFatalErrorTrace (errs : List HlsErrorType) : List HlsErrorAction :=
  errs.map hlsFatalErrorHandler

/-! ## Resume-on-canplay -/

/-- The resume branch of the `video:canplay` handler
(src/app/play/page.tsx).  Input: `resumeTimeRef.current` and the player's
`duration || 0`.  Output: the seek position applied to
`player.currentTime` (`none` when no seek is issued) and the new value of
`resumeTimeRef.current`, which the handler always nulls. -/
def onCanPlayResume (resumeTime : Option ℚ) (duration : ℚ) :
    Option ℚ × Option ℚ :=
  match resumeTime with
  | some t =>
    if 0 < t then
      (some (if duration ≠ 0 ∧ t ≥ duration - 2 then max 0 (duration - 5) else t), none)
    else (none, none)
  | none => (none, none)

/-! ## Progress persistence guard -/

/-- The inputs `saveCurrentPlayProgress` (src/app/play/page.tsx) reads:
the truthiness of the five guarded refs, and the player's
`currentTime || 0` and `duration || 0`. -/
structure ProgressCtx where
  hasPlayer : Bool
  hasSource : Bool
  hasId : Bool
  hasTitle : Bool
  hasSourceName : Bool
  currentTime : ℚ
  duration : ℚ
deriving DecidableEq, Repr

/-- The record fields derived from the player state when a save happens. -/
structure PlayRecord where
  playTime : ℤ
  totalTime : ℤ
deriving DecidableEq, Repr

/-- `saveCurrentPlayProgress`: returns `none` (no `savePlayRecord` call)
when any guarded ref is missing, when `currentTime < 1`, or when
`duration` is falsy; otherwise writes `Math.floor` of both times. -/
def saveCurrentPlayProgress (c : ProgressCtx) : Option PlayRecord :=
  if !(c.hasPlayer && c.hasSource && c.hasId && c.hasTitle && c.hasSourceName) then
    none
  else if c.currentTime < 1 ∨ c.duration = 0 then none
  else some ⟨⌊c.currentTime⌋, ⌊c.duration⌋⟩

/-! ## Skip-intro / skip-outro on `video:timeupdate` -/

/-- The skip configuration `{ enable, intro_time, outro_time }`. -/
structure SkipConfig where
  enable : Bool
  intro_time : ℚ
  outro_time : ℚ
deriving DecidableEq, Repr

/-- An action the `video:timeupdate` handler performs on the player. -/
inductive SkipAction where
  | seek (t : ℚ)
  | nextEpisode
  | pauseAtEnd
deriving DecidableEq, Repr

/-- One invocation of the `video:timeupdate` handler
(src/app/play/page.tsx).  Inputs: the skip config, whether a next episode
exists, `lastSkipCheckRef.current`, `Date.now()`, `currentTime || 0` and
`duration || 0`.  Output: the actions issued this tick, in order, and the
new `lastSkipCheckRef.current`.  The handler returns early (no action,
ref unchanged) when skipping is disabled or fewer than 1500 ms have
passed since the last passed check. -/
def onTimeUpdateTick (cfg : SkipConfig) (hasNext : Bool)
    (lastSkipCheck now currentTime duration : ℚ) : List SkipAction × ℚ :=
  if !cfg.enable then ([], lastSkipCheck)
  else if now - lastSkipCheck < 1500 then ([], lastSkipCheck)
  else
    let introActs :=
      if 0 < cfg.intro_time ∧ currentTime < cfg.intro_time then
        [SkipAction.seek cfg.intro_time]
      else []
    let outroActs :=
      if cfg.outro_time < 0 ∧ 0 < duration ∧
          duration + cfg.outro_time < currentTime then
        [if hasNext then SkipAction.nextEpisode else SkipAction.pauseAtEnd]
      else []
    (introActs ++ outroActs, now)

/-- Fold `onTimeUpdateTick` over a sequence of time-update events
`(now, currentTime, duration)`, threading `lastSkipCheckRef`. -/
def runTimeUpdates (cfg : SkipConfig) (hasNext : Bool) :
    ℚ → List (ℚ × ℚ × ℚ) → List (List SkipAction) × ℚ
  | last, [] => ([], last)
  | last, e :: rest =>
    let step := onTimeUpdateTick cfg hasNext last e.1 e.2.1 e.2.2
    let restOut := runTimeUpdates cfg hasNext step.2 rest
    (step.1 :: restOut.1, restOut.2)

/-! ## Danmaku cache gating (danmaku-cache module) -/

/-- `getDanmakuCacheExpireTime` (danmaku-cache module): server side
(`typeof window === 'undefined'`) always uses the default; otherwise a
truthy environment string is parsed with `parseInt(v, 10)`; a parse of 0
disables caching, a positive parse is taken in minutes, and everything
else (missing, empty, NaN, negative) falls back to the default 4320
minutes.  The result is in milliseconds. -/
def getDanmakuCacheExpireTime (isServer : Bool) (env : Option (List Char)) : ℤ :=
  if isServer then 4320 * 60 * 1000
  else
    match env with
    | some s =>
      if s ≠ [] then
        match parseIntJS s with
        | some m =>
          if m = 0 then 0
          else if 0 < m then m * 60 * 1000
          else 4320 * 60 * 1000
        | none => 4320 * 60 * 1000
      else 4320 * 60 * 1000
    | none => 4320 * 60 * 1000

/-- One stored danmaku cache entry `{ episodeId, comments, timestamp }`
(the `episodeId` key is the lookup argument). -/
structure DanmakuCacheEntry where
  comments : List ℤ
  timestamp : ℤ
deriving DecidableEq, Repr

/-- `saveDanmakuToCache`: when the configured expire time is 0 the
function returns before `openDB`; otherwise it opens the database and
puts `{ episodeId, comments, timestamp }`.  The result is the write
performed, `none` when nothing is written (and no database is opened). -/
def saveDanmakuToCache (isServer : Bool) (env : Option (List Char))
    (episodeId : ℤ) (comments : List ℤ) : Option (ℤ × List ℤ) :=
  if getDanmakuCacheExpireTime isServer env = 0 then none
  else some (episodeId, comments)

/-- `getDanmakuFromCache`: when the configured expire time is 0 the
function returns `null` before `openDB`; otherwise it opens the database,
looks the episode up, and returns the comments unless missing or older
than the expire time.  First component: whether the database was opened. -/
def getDanmakuFromCache (isServer : Bool) (env : Option (List Char))
    (db : ℤ → Option DanmakuCacheEntry) (now episodeId : ℤ) :
    Bool × Option (List ℤ) :=
  if getDanmakuCacheExpireTime isServer env = 0 then (false, none)
  else
    match db episodeId with
    | none => (true, none)
    | some e =>
      if getDanmakuCacheExpireTime isServer env < now - e.timestamp then (true, none)
      else (true, some e.comments)

/-! ## Admin OpenList `POST` route (src/app/api/admin/openlist/route.ts) -/

/-- The request facts the `POST` handler branches on.  `authOk` folds the
cookie check and the admin-permission check (both answer 401);
`urlOk`/`usernameOk`/`passwordOk` are the truthiness of the three
credential fields; `loginOk` is whether `OpenListClient.login` succeeds. -/
structure OpenListPostReq where
  storageType : List Char
  authOk : Bool
  action : List Char
  urlOk : Bool
  usernameOk : Bool
  passwordOk : Bool
  scanIntervalStr : Option (List Char)
  loginOk : Bool

/-- The `POST` handler of the admin OpenList route: HTTP status paired
with the `ScanInterval` stored by `db.saveAdminConfig` (`none` when no
config is saved on that path).  `parseInt(ScanInterval) || 0` coerces a
missing or unparsable value to 0; a parsed value strictly between 0 and
60 is rejected with status 400 before any save. -/
def postOpenList (r : OpenListPostReq) : ℕ × Option ℤ :=
  if r.storageType == "localstorage".toList then (400, none)
  else if !r.authOk then (401, none)
  else if r.action == "save".toList then
    if !(r.urlOk && r.usernameOk && r.passwordOk) then (400, none)
    else
      let scanInterval : ℤ :=
        match r.scanIntervalStr with
        | none => 0
        | some s =>
          match parseIntJS s with
          | none => 0
          | some v => v
      if 0 < scanInterval ∧ scanInterval < 60 then (400, none)
      else if !r.loginOk then (400, none)
      else (200, some scanInterval)
  else (400, none)

/-! ## Lemmas about `jsSplit` / `jsJoin` -/

lemma jsSplit_ne_nil (sep : Char) (s : List Char) : jsSplit sep s ≠ [] := by
  induction s with
  | nil => simp [jsSplit]
  | cons c cs ih =>
    cases h : jsSplit sep cs with
    | nil => simp [jsSplit, h]
    | cons l ls =>
      simp only [jsSplit, h]
      split <;> simp

lemma not_mem_of_mem_jsSplit (sep : Char) (s : List Char) :
    ∀ l ∈ jsSplit sep s, sep ∉ l := by
  induction s with
  | nil =>
    intro l hl
    simp [jsSplit] at hl
    subst hl
    simp
  | cons c cs ih =>
    intro l hl
    cases h : jsSplit sep cs with
    | nil => exact absurd h (jsSplit_ne_nil sep cs)
    | cons l0 ls0 =>
      have hl0 : l0 ∈ jsSplit sep cs := by rw [h]; exact List.mem_cons_self _ _
      simp only [jsSplit, h] at hl
      by_cases hc : c = sep
      · rw [if_pos hc] at hl
        rcases List.mem_cons.mp hl with rfl | hl2
        · simp
        · exact ih l (by rw [h]; exact hl2)
      · rw [if_neg hc] at hl
        rcases List.mem_cons.mp hl with rfl | hl2
        · intro hmem
          rcases List.mem_cons.mp hmem with h1 | h2
          · exact hc h1.symm
          · exact ih l0 hl0 h2
        · exact ih l (by rw [h]; exact List.mem_cons_of_mem _ hl2)

lemma jsSplit_of_not_mem {sep : Char} {a : List Char} (h : sep ∉ a) :
    jsSplit sep a = [a] := by
  induction a with
  | nil => simp [jsSplit]
  | cons c cs ih =>
    have hc : ¬(c = sep) := fun e => h (e ▸ List.mem_cons_self c cs)
    have hcs : sep ∉ cs := fun m => h (List.mem_cons_of_mem _ m)
    simp only [jsSplit, ih hcs]
    rw [if_neg hc]

lemma jsSplit_append_sep {sep : Char} {a : List Char} (h : sep ∉ a) (t : List Char) :
    jsSplit sep (a ++ sep :: t) = a :: jsSplit sep t := by
  induction a with
  | nil =>
    cases ht : jsSplit sep t with
    | nil => exact absurd ht (jsSplit_ne_nil sep t)
    | cons l ls =>
      simp only [List.nil_append, jsSplit, ht]
      simp
  | cons c cs ih =>
    have hc : ¬(c = sep) := fun e => h (e ▸ List.mem_cons_self c cs)
    have hcs : sep ∉ cs := fun m => h (List.mem_cons_of_mem _ m)
    simp only [List.cons_append, jsSplit, List.append_eq, ih hcs]
    rw [if_neg hc]

lemma jsSplit_jsJoin {sep : Char} : ∀ (ls : List (List Char)), ls ≠ [] →
    (∀ l ∈ ls, sep ∉ l) → jsSplit sep (jsJoin sep ls) = ls
  | [], h, _ => absurd rfl h
  | [l], _, hall => by
    simp only [jsJoin]
    rw [jsSplit_of_not_mem (hall l (by simp))]
  | l :: l2 :: rest, _, hall => by
    simp only [jsJoin]
    rw [jsSplit_append_sep (hall l (by simp)) (jsJoin sep (l2 :: rest))]
    rw [jsSplit_jsJoin (l2 :: rest) (by simp)
      (fun x hx => hall x (List.mem_cons_of_mem _ hx))]

/-! ## Lemmas about the filter loop -/

lemma filterLoop_sublist (r : Bool) : ∀ (ls : List (List Char)) (b : Bool),
    (filterLoop r ls b).Sublist ls
  | [], _ => by simp [filterLoop]
  | l :: rest, true => by
    simp only [filterLoop]
    exact (filterLoop_sublist r rest false).cons l
  | l :: rest, false => by
    simp only [filterLoop]
    split
    · exact (filterLoop_sublist r rest false).cons l
    · split
      · exact (filterLoop_sublist r rest true).cons l
      · exact (filterLoop_sublist r rest false).cons₂ l

lemma filterLoop_disc_free (r : Bool) (ls : List (List Char)) :
    ∀ (b : Bool) (l : List Char),
    l ∈ filterLoop r ls b → includesSub discMarker l = false := by
  induction ls with
  | nil =>
    intro b l h
    simp [filterLoop] at h
  | cons x rest ih =>
    intro b l h
    cases b with
    | true => exact ih false l (by simpa [filterLoop] using h)
    | false =>
      simp only [filterLoop] at h
      by_cases h1 : includesSub discMarker x
      · rw [if_pos h1] at h
        exact ih false l h
      · rw [if_neg h1] at h
        by_cases h2 : (r && matchesRuyiFiller x) = true
        · rw [if_pos h2] at h
          exact ih true l h
        · rw [if_neg h2] at h
          rcases List.mem_cons.mp h with rfl | hm
          · simpa using h1
          · exact ih false l hm

lemma filterLoop_noop (r : Bool) : ∀ (ls : List (List Char)),
    (∀ l ∈ ls, includesSub discMarker l = false ∧ (r && matchesRuyiFiller l) = false) →
    filterLoop r ls false = ls := by
  intro ls
  induction ls with
  | nil =>
    intro _
    simp [filterLoop]
  | cons x rest ih =>
    intro h
    obtain ⟨h1, h2⟩ := h x (by simp)
    simp only [filterLoop]
    rw [if_neg (by simp [h1]), if_neg (by simp [h2])]
    rw [ih (fun l hl => h l (by simp [hl]))]

lemma specDefaultRule_eq_filterLoop (r : Bool) (ls : List (List Char)) :
    specDefaultRule r ls = filterLoop r ls false := by
  have key : ∀ (n : ℕ) (ls : List (List Char)), ls.length ≤ n →
      specDefaultRule r ls = filterLoop r ls false := by
    intro n
    induction n with
    | zero =>
      intro ls h
      have : ls = [] := List.eq_nil_of_length_eq_zero (Nat.le_zero.mp h)
      subst this
      simp [specDefaultRule, filterLoop]
    | succ n ihn =>
      intro ls h
      cases ls with
      | nil => simp [specDefaultRule, filterLoop]
      | cons l rest =>
        have hlen : rest.length ≤ n := by
          simp only [List.length_cons] at h
          omega
        cases rest with
        | nil =>
          by_cases h1 : includesSub discMarker l
          · simp [specDefaultRule, filterLoop, h1]
          · by_cases h2 : (r && matchesRuyiFiller l) = true
            · simp [specDefaultRule, filterLoop, h1, h2]
            · simp [specDefaultRule, filterLoop, h1, h2]
        | cons y rest2 =>
          have hlen2 : rest2.length ≤ n := by
            simp only [List.length_cons] at hlen
            omega
          simp only [specDefaultRule, filterLoop]
          by_cases h1 : includesSub discMarker l
          · rw [if_pos h1, if_pos h1]
            exact ihn (y :: rest2) hlen
          · rw [if_neg h1, if_neg h1]
            by_cases h2 : (r && matchesRuyiFiller l) = true
            · rw [if_pos h2, if_pos h2]
              exact ihn rest2 hlen2
            · rw [if_neg h2, if_neg h2]
              rw [ihn (y :: rest2) hlen]
              simp only [filterLoop]
  exact key ls.length ls le_rfl

/-! ## Scoring lemmas -/

lemma pingScoreOf_eq_specLatencySub (p mn mx : ℚ) :
    pingScoreOf p mn mx = specLatencySub p mn mx := by
  unfold pingScoreOf specLatencySub
  split_ifs with h1 h2
  · rfl
  · rfl
  · congr 1
    congr 1
    ring

/-- C1: for every probe result (with a speed string the regex can parse)
and batch bounds with a positive speed ceiling, the composite score
returned by `calculateSourceScore` equals `0.4*q + 0.4*s + 0.2*l` rounded
to 2 decimal places, with the three sub-scores exactly as the
specification words them; and the batch-level `max_speed_observed`
defaults to 1024 KB/s when no candidate has a measurable speed. -/
theorem claim_C1_score_formula (t : TestResult) (maxSpeed minPing maxPing : ℚ)
    (hms : 0 < maxSpeed) (hnn : t.loadSpeed.nonneg)
    (hmal : t.loadSpeed ≠ LoadSpeed.malformed) :
    calculateSourceScore t maxSpeed minPing maxPing
        = specCompositeScore t maxSpeed minPing maxPing
    ∧ (∀ rs : List TestResult, validSpeedsOf rs = [] → maxSpeedOf rs = 1024) := by
  constructor
  · obtain ⟨q, ls, p⟩ := t
    have hq : qualityScoreOf q = specQualitySub q := by cases q <;> rfl
    have hl : pingScoreOf p minPing maxPing = specLatencySub p minPing maxPing :=
      pingScoreOf_eq_specLatencySub p minPing maxPing
    have hs : speedScoreOf ls maxSpeed = specSpeedSub ls maxSpeed := by
      cases ls with
      | unknown => rfl
      | measuring => rfl
      | malformed => exact absurd rfl hmal
      | kb v =>
        have hv : (0 : ℚ) ≤ v := hnn
        simp only [speedScoreOf, parsedSpeedKBps, specSpeedSub]
        rw [max_eq_right (mul_nonneg (div_nonneg hv hms.le) (by norm_num))]
        congr 1
        ring
      | mb v =>
        have hv : (0 : ℚ) ≤ v := hnn
        simp only [speedScoreOf, parsedSpeedKBps, specSpeedSub]
        rw [max_eq_right (mul_nonneg (div_nonneg (by positivity) hms.le) (by norm_num))]
        congr 1
        ring
    show round2 (qualityScoreOf q * 0.4 + speedScoreOf ls maxSpeed * 0.4
        + pingScoreOf p minPing maxPing * 0.2)
      = round2 (0.4 * specQualitySub q + 0.4 * specSpeedSub ls maxSpeed
        + 0.2 * specLatencySub p minPing maxPing)
    rw [hq, hl, hs]
    congr 1
    ring
  · intro rs hrs
    unfold maxSpeedOf
    rw [hrs]
    rfl

/-- Witness for C1 at a concrete probe result and batch bounds. -/
theorem claim_C1_witness :
    calculateSourceScore ⟨Quality.q1080p, LoadSpeed.kb 500, 40⟩ 1024 40 90
      = specCompositeScore ⟨Quality.q1080p, LoadSpeed.kb 500, 40⟩ 1024 40 90 :=
  (claim_C1_score_formula ⟨Quality.q1080p, LoadSpeed.kb 500, 40⟩ 1024 40 90
    (by norm_num) (by norm_num [LoadSpeed.nonneg]) (by decide)).1

/-- C2: for every manifest without the matched ruyi filler-duration
markers, applying the default ad filter twice gives the same result as
applying it once (first conjunct, under that hypothesis only); and for
EVERY manifest — markers present or not — the default filter behaves
exactly as the specification describes (drop `#EXT-X-DISCONTINUITY`
lines; for the `ruyi` provider drop each allow-listed filler marker line
together with its immediately following line; pass every other line
through unchanged, in order): the second conjunct equates the code's
filter with the spec-worded `specDefaultRule` unconditionally.  The kept
lines form a sublist of the input lines (third conjunct, also
unconditional), and the embedding is a pure function, so the input is
not mutated. -/
theorem claim_C2_ad_filter (type content : List Char) :
    ((∀ l ∈ jsSplit nlChar content, matchesRuyiFiller l = false) →
      filterAdsFromM3U8 type (filterAdsFromM3U8 type content)
        = filterAdsFromM3U8 type content)
    ∧ filterAdsFromM3U8 type content
        = jsJoin nlChar (specDefaultRule (type == ruyiType) (jsSplit nlChar content))
    ∧ (filterLoop (type == ruyiType) (jsSplit nlChar content) false).Sublist
        (jsSplit nlChar content) := by
  refine ⟨fun h => ?_, ?_, filterLoop_sublist _ _ _⟩
  · by_cases hc : content = []
    · subst hc
      simp [filterAdsFromM3U8]
    · have hfc : filterAdsFromM3U8 type content
          = jsJoin nlChar (filterLoop (type == ruyiType) (jsSplit nlChar content) false) := by
        simp [filterAdsFromM3U8, hc]
      rw [hfc]
      by_cases hj : jsJoin nlChar
          (filterLoop (type == ruyiType) (jsSplit nlChar content) false) = [] 
      · rw [hj]
        simp [filterAdsFromM3U8]
      · have houtne : filterLoop (type == ruyiType) (jsSplit nlChar content) false ≠ [] := by
          intro h0
          apply hj
          rw [h0]
          rfl
        have hnl : ∀ l ∈ filterLoop (type == ruyiType) (jsSplit nlChar content) false,
            nlChar ∉ l := fun l hl =>
          not_mem_of_mem_jsSplit nlChar content l
            ((filterLoop_sublist (type == ruyiType) (jsSplit nlChar content) false).subset hl)
        have hsj : jsSplit nlChar (jsJoin nlChar
              (filterLoop (type == ruyiType) (jsSplit nlChar content) false))
            = filterLoop (type == ruyiType) (jsSplit nlChar content) false :=
          jsSplit_jsJoin _ houtne hnl
        have hstep : filterAdsFromM3U8 type (jsJoin nlChar
              (filterLoop (type == ruyiType) (jsSplit nlChar content) false))
            = jsJoin nlChar (filterLoop (type == ruyiType)
                (filterLoop (type == ruyiType) (jsSplit nlChar content) false) false) := by
          simp [filterAdsFromM3U8, hj, hsj]
        rw [hstep]
        congr 1
        apply filterLoop_noop
        intro l hl
        have hmem : l ∈ jsSplit nlChar content :=
          (filterLoop_sublist (type == ruyiType) (jsSplit nlChar content) false).subset hl
        refine ⟨filterLoop_disc_free (type == ruyiType) (jsSplit nlChar content) false l hl, ?_⟩
        rw [h l hmem]
        simp
  · by_cases hc : content = []
    · subst hc
      cases hb : (type == ruyiType) <;>
        simp only [filterAdsFromM3U8, hb] <;> decide
    · have hfc : filterAdsFromM3U8 type content
          = jsJoin nlChar (filterLoop (type == ruyiType) (jsSplit nlChar content) false) := by
        simp [filterAdsFromM3U8, hc]
      rw [hfc, specDefaultRule_eq_filterLoop]

/-- Witness for C2 on a concrete manifest with a discontinuity line and
no filler markers. -/
theorem claim_C2_witness :
    filterAdsFromM3U8 ("ruyi".toList)
        (filterAdsFromM3U8 ("ruyi".toList)
          ("#EXTM3U\n#EXT-X-DISCONTINUITY\nseg1.ts".toList))
      = filterAdsFromM3U8 ("ruyi".toList)
          ("#EXTM3U\n#EXT-X-DISCONTINUITY\nseg1.ts".toList) :=
  (claim_C2_ad_filter ("ruyi".toList)
    ("#EXTM3U\n#EXT-X-DISCONTINUITY\nseg1.ts".toList)).1 (by decide)

/-- C3 counterexample: a network-class fatal error firing twice in a row
(no successful frame render in between — the handler reads no such state)
does NOT escalate to a terminal error on the second failure: the handler
answers `startLoad` (an in-place retry) both times, and `startLoad` is
not the terminal `destroy` action. -/
theorem claim_C3_counterexample :
    hlsFatalErrorTrace [HlsErrorType.networkError, HlsErrorType.networkError]
      = [HlsErrorAction.startLoad, HlsErrorAction.startLoad]
    ∧ HlsErrorAction.startLoad ≠ HlsErrorAction.destroy := by
  decide

/-- C3 (amended): the hls error handler is stateless, so in-place recovery
for network-class and media-class fatal errors is unbounded: no sequence
of such errors ever produces the terminal `destroy` action, however long;
only an "other"-class fatal error is terminal. -/
theorem claim_C3_amended (errs : List HlsErrorType)
    (h : ∀ e ∈ errs, e = HlsErrorType.networkError ∨ e = HlsErrorType.mediaError) :
    HlsErrorAction.destroy ∉ hlsFatalErrorTrace errs
    ∧ hlsFatalErrorHandler HlsErrorType.otherError = HlsErrorAction.destroy := by
  constructor
  · intro hmem
    unfold hlsFatalErrorTrace at hmem
    rcases List.mem_map.mp hmem with ⟨e, he, hact⟩
    rcases h e he with rfl | rfl <;> simp [hlsFatalErrorHandler] at hact
  · rfl

/-- Witness for the amended C3 on a concrete repeated-network-error
trace. -/
theorem claim_C3_witness :
    HlsErrorAction.destroy ∉
      hlsFatalErrorTrace [HlsErrorType.networkError, HlsErrorType.networkError] :=
  (claim_C3_amended [HlsErrorType.networkError, HlsErrorType.networkError]
    (by decide)).1

/-- C4: when a pending resume target exists on `canplay` and lies within
2 seconds of the total duration, the applied seek is clamped to
`duration - 5` (for durations of at least 5 seconds), and the resume
target is cleared afterwards (second component `none`), so it is applied
at most once. -/
theorem claim_C4_resume_clamp (t d : ℚ) (ht : 0 < t) (hd : 5 ≤ d)
    (hclose : t ≥ d - 2) :
    onCanPlayResume (some t) d = (some (d - 5), none) := by
  simp only [onCanPlayResume]
  rw [if_pos ht]
  have hne : d ≠ 0 := by
    intro h0
    rw [h0] at hd
    norm_num at hd
  rw [if_pos ⟨hne, hclose⟩, max_eq_right (by linarith)]

/-- Witness for C4 at the specification's concrete example: duration 100,
resume target 99, applied seek 95 (which is at most 95). -/
theorem claim_C4_witness :
    onCanPlayResume (some 99) 100 = (some 95, none) := by
  have h := claim_C4_resume_clamp 99 100 (by norm_num) (by norm_num) (by norm_num)
  rw [h]
  norm_num

/-- C5: for every non-empty candidate list in which every probe failed,
`preferBestSource` returns the first candidate (`sources[0]`) and does
not fail (the result is `some`). -/
theorem claim_C5_all_fail_fallback {α : Type} (sources : List α)
    (results : List (Option TestResult))
    (h1 : sources ≠ []) (h2 : ∀ r ∈ results, r = none) :
    preferBestSource sources results = sources.head?
    ∧ (preferBestSource sources results).isSome = true := by
  have hfm : (sources.zip results).filterMap
      (fun p => p.2.map (fun t => (p.1, t))) = [] := by
    rw [List.filterMap_eq_nil_iff]
    intro p hp
    have hpr : p.2 ∈ results := (List.of_mem_zip hp).2
    rw [h2 p.2 hpr]
    rfl
  have e : preferBestSource sources results = sources.head? := by
    unfold preferBestSource
    rw [hfm]
  refine ⟨e, ?_⟩
  rw [e]
  cases sources with
  | nil => exact absurd rfl h1
  | cons a as => rfl

/-- Witness for C5 at a one-candidate list whose probe failed. -/
theorem claim_C5_witness :
    preferBestSource [(0 : ℕ)] [(none : Option TestResult)] = some 0 := by
  have h := (claim_C5_all_fail_fallback [(0 : ℕ)] [none] (by simp) (by simp)).1
  simpa using h

/-- C6: a progress record is never persisted when the current play time
is below 1 second or the total duration is unknown (falsy):
`saveCurrentPlayProgress` returns without writing anything. -/
theorem claim_C6_no_junk_progress (c : ProgressCtx)
    (h : c.currentTime < 1 ∨ c.duration = 0) :
    saveCurrentPlayProgress c = none := by
  unfold saveCurrentPlayProgress
  split_ifs with h1
  · rfl
  · rfl

/-- Witness for C6 at a half-second play position. -/
theorem claim_C6_witness :
    saveCurrentPlayProgress ⟨true, true, true, true, true, 1/2, 100⟩ = none :=
  claim_C6_no_junk_progress ⟨true, true, true, true, true, 1/2, 100⟩
    (Or.inl (by norm_num))

/-- C7: with skip enabled, a positive intro time and a reported position
before it, a time-update tick (whose throttle window has elapsed) issues
exactly one seek to `intro_time` and, for the concrete configuration
`{enabled, intro 90, outro 0}` at `current = 30`, no further skip action
is issued by any later time-update arriving within 1.5 seconds; in
general the seek to `intro_time` is among the tick's actions. -/
theorem claim_C7_skip_intro (hasNext : Bool) (last now dur : ℚ)
    (events : List (ℚ × ℚ × ℚ))
    (h1 : 1500 ≤ now - last)
    (h2 : ∀ e ∈ events, e.1 - now < 1500) :
    runTimeUpdates ⟨true, 90, 0⟩ hasNext last ((now, 30, dur) :: events)
      = ([SkipAction.seek 90] :: events.map (fun _ => []), now)
    ∧ ∀ (cfg : SkipConfig) (hn : Bool) (l n c d : ℚ),
        cfg.enable = true → 0 < cfg.intro_time → c < cfg.intro_time →
        1500 ≤ n - l →
        SkipAction.seek cfg.intro_time ∈ (onTimeUpdateTick cfg hn l n c d).1 := by
  constructor
  · have hfirst : onTimeUpdateTick ⟨true, 90, 0⟩ hasNext last now 30 dur
        = ([SkipAction.seek 90], now) := by
      unfold onTimeUpdateTick
      rw [if_neg (by norm_num), if_neg (not_lt.mpr h1), if_pos (by norm_num),
        if_neg (by norm_num)]
      rfl
    have hrest : ∀ (evs : List (ℚ × ℚ × ℚ)), (∀ e ∈ evs, e.1 - now < 1500) →
        runTimeUpdates ⟨true, 90, 0⟩ hasNext now evs
          = (evs.map (fun _ => []), now) := by
      intro evs
      induction evs with
      | nil => intro _; rfl
      | cons e rest ih =>
        intro hh
        have he : e.1 - now < 1500 := hh e (by simp)
        have htick : onTimeUpdateTick ⟨true, 90, 0⟩ hasNext now e.1 e.2.1 e.2.2
            = ([], now) := by
          unfold onTimeUpdateTick
          rw [if_neg (by norm_num), if_pos he]
        simp only [runTimeUpdates, htick]
        rw [ih (fun x hx => hh x (List.mem_cons_of_mem _ hx))]
        simp
    simp only [runTimeUpdates]
    rw [hfirst, hrest events h2]
  · intro cfg hn l n c d he hi hc hthr
    unfold onTimeUpdateTick
    rw [he]
    simp only [Bool.not_true]
    rw [if_neg (by simp), if_neg (not_lt.mpr hthr), if_pos ⟨hi, hc⟩]
    simp

/-- Witness for C7: three time-update events, the first passing the
throttle and triggering the single seek, the later two arriving within
the 1.5-second window and producing no action. -/
theorem claim_C7_witness :
    runTimeUpdates ⟨true, 90, 0⟩ false 0
        [(1500, 30, 600), (2000, 95, 600), (2900, 100, 600)]
      = ([[SkipAction.seek 90], [], []], 1500) := by
  have h := (claim_C7_skip_intro false 0 1500 600
    [(2000, 95, 600), (2900, 100, 600)] (by norm_num) ?_).1
  · simpa using h
  · intro e he
    simp only [List.mem_cons, List.not_mem_nil, or_false] at he
    rcases he with rfl | rfl <;> norm_num

/-! ## Rounding separation lemmas for the scorer -/

set_option linter.unusedTactic false in
lemma qualityScoreOf_gap (q1 q2 : Quality) (h : q1 ≠ q2) :
    qualityScoreOf q1 + 10 ≤ qualityScoreOf q2
    ∨ qualityScoreOf q2 + 10 ≤ qualityScoreOf q1 := by
  cases q1 <;> cases q2 <;> first
    | exact absurd rfl h
    | (left; norm_num [qualityScoreOf]; done)
    | (right; norm_num [qualityScoreOf]; done)

lemma round2_lt_of_add_four_le {x y : ℚ} (h : x + 4 ≤ y) :
    round2 x < round2 y := by
  unfold round2 jsRound
  have h1 : ⌊x * 100 + 1/2⌋ + 400 ≤ ⌊y * 100 + 1/2⌋ := by
    have e : (⌊x * 100 + 1/2⌋ : ℤ) + 400 = ⌊x * 100 + 1/2 + (400 : ℤ)⌋ :=
      (Int.floor_add_int _ _).symm
    rw [e]
    apply Int.floor_le_floor
    push_cast
    linarith
  have h2 : ⌊x * 100 + 1/2⌋ < ⌊y * 100 + 1/2⌋ := by omega
  have h3 : ((⌊x * 100 + 1/2⌋ : ℤ) : ℚ) < ((⌊y * 100 + 1/2⌋ : ℤ) : ℚ) := by
    exact_mod_cast h2
  linarith

/-- C8 counterexample: under batch bounds genuinely arising from a probe
batch (pings 50, 10049, 10050; no measurable speeds, so the 1024 KB/s
speed default applies), two probe results that differ in their latency
field (10049 ms vs 10050 ms) receive the same composite score, because
the 2-decimal rounding absorbs the 0.002-point latency difference.  This
refutes the claim that results differing in any of the three fields never
receive equal scores. -/
theorem claim_C8_counterexample :
    calculateSourceScore ⟨Quality.unknown, LoadSpeed.unknown, 10049⟩
        (maxSpeedOf [⟨Quality.unknown, LoadSpeed.unknown, 50⟩,
          ⟨Quality.unknown, LoadSpeed.unknown, 10049⟩,
          ⟨Quality.unknown, LoadSpeed.unknown, 10050⟩])
        (minPingOf [⟨Quality.unknown, LoadSpeed.unknown, 50⟩,
          ⟨Quality.unknown, LoadSpeed.unknown, 10049⟩,
          ⟨Quality.unknown, LoadSpeed.unknown, 10050⟩])
        (maxPingOf [⟨Quality.unknown, LoadSpeed.unknown, 50⟩,
          ⟨Quality.unknown, LoadSpeed.unknown, 10049⟩,
          ⟨Quality.unknown, LoadSpeed.unknown, 10050⟩])
      = calculateSourceScore ⟨Quality.unknown, LoadSpeed.unknown, 10050⟩
        (maxSpeedOf [⟨Quality.unknown, LoadSpeed.unknown, 50⟩,
          ⟨Quality.unknown, LoadSpeed.unknown, 10049⟩,
          ⟨Quality.unknown, LoadSpeed.unknown, 10050⟩])
        (minPingOf [⟨Quality.unknown, LoadSpeed.unknown, 50⟩,
          ⟨Quality.unknown, LoadSpeed.unknown, 10049⟩,
          ⟨Quality.unknown, LoadSpeed.unknown, 10050⟩])
        (maxPingOf [⟨Quality.unknown, LoadSpeed.unknown, 50⟩,
          ⟨Quality.unknown, LoadSpeed.unknown, 10049⟩,
          ⟨Quality.unknown, LoadSpeed.unknown, 10050⟩])
    ∧ (⟨Quality.unknown, LoadSpeed.unknown, 10049⟩ : TestResult)
        ≠ ⟨Quality.unknown, LoadSpeed.unknown, 10050⟩ := by
  constructor
  · norm_num [calculateSourceScore, maxSpeedOf, minPingOf, maxPingOf,
      validSpeedsOf, validPingsOf, speedValueOf, parsedSpeedKBps,
      qualityScoreOf, speedScoreOf, pingScoreOf, round2, jsRound,
      List.max?, List.min?, speedScoreOf]
  · simp

/-- C8 (amended): scores can tie between results that differ only in
speed or latency (see the counterexample), but two results that differ in
quality while agreeing in speed and latency never receive equal scores
under the same batch bounds: the smallest weighted quality gap (4 points)
survives the 2-decimal rounding. -/
theorem claim_C8_amended (q1 q2 : Quality) (ls : LoadSpeed) (p ms mn mx : ℚ)
    (h : q1 ≠ q2) :
    calculateSourceScore ⟨q1, ls, p⟩ ms mn mx
      ≠ calculateSourceScore ⟨q2, ls, p⟩ ms mn mx := by
  have e1 : calculateSourceScore ⟨q1, ls, p⟩ ms mn mx
      = round2 (qualityScoreOf q1 * 0.4 + speedScoreOf ls ms * 0.4
        + pingScoreOf p mn mx * 0.2) := rfl
  have e2 : calculateSourceScore ⟨q2, ls, p⟩ ms mn mx
      = round2 (qualityScoreOf q2 * 0.4 + speedScoreOf ls ms * 0.4
        + pingScoreOf p mn mx * 0.2) := rfl
  rw [e1, e2]
  rcases qualityScoreOf_gap q1 q2 h with hg | hg
  · exact ne_of_lt (round2_lt_of_add_four_le (by linarith))
  · exact ne_of_gt (round2_lt_of_add_four_le (by linarith))

/-- Witness for the amended C8 at 4K vs 2K with shared speed, latency
and bounds. -/
theorem claim_C8_witness :
    calculateSourceScore ⟨Quality.q4K, LoadSpeed.unknown, 100⟩ 1024 50 1000
      ≠ calculateSourceScore ⟨Quality.q2K, LoadSpeed.unknown, 100⟩ 1024 50 1000 :=
  claim_C8_amended Quality.q4K Quality.q2K LoadSpeed.unknown 100 1024 50 1000
    (by decide)

/-- C9: when the environment variable parses to the integer 0 (client
side), the configured expire time is 0 and caching is fully disabled at
the public interface — `saveDanmakuToCache` writes nothing and
`getDanmakuFromCache` answers `null`, in both cases without opening the
database; a missing environment value, and an unparsable one, fall back
to the default of 4320 minutes (in milliseconds). -/
theorem claim_C9_cache_disabled (s : List Char)
    (h0 : parseIntJS s = some 0) (hne : s ≠ []) :
    getDanmakuCacheExpireTime false (some s) = 0
    ∧ (∀ (episodeId : ℤ) (comments : List ℤ),
        saveDanmakuToCache false (some s) episodeId comments = none)
    ∧ (∀ (db : ℤ → Option DanmakuCacheEntry) (now episodeId : ℤ),
        getDanmakuFromCache false (some s) db now episodeId = (false, none))
    ∧ getDanmakuCacheExpireTime false none = 4320 * 60 * 1000
    ∧ (∀ s2 : List Char, parseIntJS s2 = none →
        getDanmakuCacheExpireTime false (some s2) = 4320 * 60 * 1000) := by
  have he : getDanmakuCacheExpireTime false (some s) = 0 := by
    simp [getDanmakuCacheExpireTime, h0, hne]
  refine ⟨he, fun episodeId comments => ?_, fun db now episodeId => ?_,
    by simp [getDanmakuCacheExpireTime], fun s2 h2 => ?_⟩
  · simp [saveDanmakuToCache, he]
  · simp [getDanmakuFromCache, he]
  · by_cases hs2 : s2 = []
    · subst hs2
      simp [getDanmakuCacheExpireTime]
    · simp [getDanmakuCacheExpireTime, h2, hs2]

/-- Witness for C9 at the environment string "0". -/
theorem claim_C9_witness :
    parseIntJS ['0'] = some 0 ∧ getDanmakuCacheExpireTime false (some ['0']) = 0 :=
  ⟨by decide, (claim_C9_cache_disabled ['0'] (by decide) (by decide)).1⟩

/-- C10: a save request to the admin OpenList endpoint whose
`ScanInterval` parses to an integer strictly between 0 and 60 is answered
with HTTP 400 and the admin config is not saved on that path; a missing
or unparsable `ScanInterval` is coerced to 0 and sails past that check
(the config is saved with interval 0 when login succeeds). -/
theorem claim_C10_scan_interval (r : OpenListPostReq) (s : List Char) (n : ℤ)
    (hstore : r.storageType ≠ "localstorage".toList)
    (hauth : r.authOk = true)
    (haction : r.action = "save".toList)
    (hurl : r.urlOk = true) (huser : r.usernameOk = true)
    (hpass : r.passwordOk = true)
    (hsi : r.scanIntervalStr = some s)
    (hp : parseIntJS s = some n) (hn0 : 0 < n) (hn60 : n < 60) :
    postOpenList r = (400, none)
    ∧ ∀ (r2 : OpenListPostReq),
        r2.storageType ≠ "localstorage".toList → r2.authOk = true →
        r2.action = "save".toList → r2.urlOk = true → r2.usernameOk = true →
        r2.passwordOk = true → r2.loginOk = true →
        (r2.scanIntervalStr = none
          ∨ ∃ s2, r2.scanIntervalStr = some s2 ∧ parseIntJS s2 = none) →
        postOpenList r2 = (200, some 0) := by
  obtain ⟨st, auth, act, u, un, pw, si, lg⟩ := r
  dsimp only at hstore hauth haction hurl huser hpass hsi
  subst hauth haction hurl huser hpass hsi
  constructor
  · have hb1 : (st == "localstorage".toList) = false :=
      beq_eq_false_iff_ne.mpr hstore
    simp [postOpenList, hb1, hp, hn0, hn60]
  · intro r2 h1 h2 h3 h4 h5 h6 h7 h8
    obtain ⟨st2, auth2, act2, u2, un2, pw2, si2, lg2⟩ := r2
    dsimp only at h1 h2 h3 h4 h5 h6 h7 h8
    subst h2 h3 h4 h5 h6 h7
    have hc1 : (st2 == "localstorage".toList) = false :=
      beq_eq_false_iff_ne.mpr h1
    rcases h8 with h8 | ⟨s2, hs2, hps2⟩
    · subst h8
      simp [postOpenList, hc1]
      simpa using h1
    · subst hs2
      simp [postOpenList, hc1, hps2]
      simpa using h1

/-- Witness for C10 at a concrete save request with `ScanInterval` 30. -/
theorem claim_C10_witness :
    postOpenList ⟨"redis".toList, true, "save".toList, true, true, true,
        some ("30".toList), true⟩
      = (400, none) :=
  (claim_C10_scan_interval
    ⟨"redis".toList, true, "save".toList, true, true, true,
      some ("30".toList), true⟩ ("30".toList) 30
    (by decide) rfl rfl rfl rfl rfl rfl (by decide) (by decide) (by decide)).1
